import Mathlib

/-!
Verification of the weather-mcp-atomic core: the path-based data extraction
engine (`extract_data_fields` in `atomic_tools/ai_processing.py`) and the
TTL cache layer (`cache_data`, `get_cached_data`, `clear_cache` in
`atomic_tools/infrastructure.py`).

Structured values (Python's JSON-like data) are a tagged union; timestamps
(`datetime.now()`) are integer seconds passed explicitly; the process-wide
`_cache_store` dict is an association list with unique keys threaded through
each operation.  Two refinements model CPython specifics where they matter:
`PyUnicode` gives the extractor Python's Unicode digit classification for
`str.isdigit()`/`int()` (including the `int()` ValueError escape), and
`PyDatetime` gives `cache_data` the datetime/timedelta representability
bounds whose OverflowError makes it return False.
-/

/-- JSON-like structured value: null, bool, number, string, sequence, map. -/
inductive JsonValue where
  | null : JsonValue
  | bool (b : Bool) : JsonValue
  | num (q : Rat) : JsonValue
  | str (s : String) : JsonValue
  | arr (xs : List JsonValue) : JsonValue
  | obj (kvs : List (String × JsonValue)) : JsonValue

/-- Python `part in current_value and current_value[part]` on a dict:
first (only, since dict keys are unique) binding of the key. -/
def lookupObj (key : String) : List (String × JsonValue) → Option JsonValue
  | [] => none
  | (k, v) :: rest => if k = key then some v else lookupObj key rest

/-- Python `str.isdigit()`: nonempty and every character a digit
(modelled over ASCII digits). -/
def isdigitStr (s : String) : Bool :=
  !s.isEmpty && s.toList.all (fun c => c.isDigit)

/-- Python `int(part)` on a digit string. -/
def strToNat (s : String) : Nat :=
  s.toList.foldl (fun n c => 10 * n + (c.toNat - 48)) 0

/-- Split a character list on '.', keeping empty segments
(Python `"a..b".split('.') == ["a", "", "b"]`, `"".split('.') == [""]`). -/
def splitDotChars : List Char → List (List Char)
  | [] => [[]]
  | c :: rest =>
    if c = '.' then [] :: splitDotChars rest
    else
      match splitDotChars rest with
      | [] => [[c]]
      | seg :: segs => (c :: seg) :: segs

/-- Python `source_path.split('.')`. -/
def splitDot (s : String) : List String :=
  (splitDotChars s.toList).map (fun cs => cs.asString)

/-- The inner loop of `extract_data_fields`: walk the dot-separated path
segments from the source value.  A digit segment demands a list with the
index in range (`isinstance(current_value, list) and 0 <= index < len`);
any other segment demands a dict containing the key.  Any violation raises
KeyError/IndexError in the source, caught per field; here: `none`. -/
def resolveParts : List String → JsonValue → Option JsonValue
  | [], current => some current
  | part :: rest, current =>
    if isdigitStr part then
      match current with
      | JsonValue.arr xs =>
        match xs.get? (strToNat part) with
        | some v => resolveParts rest v
        | none => none
      | _ => none
    else
      match current with
      | JsonValue.obj kvs =>
        match lookupObj part kvs with
        | some v => resolveParts rest v
        | none => none
      | _ => none

/-- Python `extract_data_fields(source_data, field_mapping)`: for each
`(new_field, source_path)` pair, split the path on '.', navigate step by
step, and bind the field to the final value, or to null when resolution
fails for that field (the per-field `except (KeyError, IndexError,
TypeError)` handler). -/
def extract_data_fields (source_data : JsonValue) :
    List (String × String) → List (String × JsonValue)
  | [] => []
  | (new_field, source_path) :: rest =>
    (new_field,
      match resolveParts (splitDot source_path) source_data with
      | some v => v
      | none => JsonValue.null) :: extract_data_fields source_data rest

/-- A `_cache_store` entry: `{"data": ..., "expires_at": ..., "cached_at": ...}`. -/
structure CacheEntry where
  data : JsonValue
  expires_at : Int
  cached_at : Int

/-- The process-wide `_cache_store` dict. -/
abbrev Store := List (String × CacheEntry)

/-- Python `_cache_store[key] = entry`: overwrite in place, else append. -/
def insertEntry (key : String) (e : CacheEntry) : Store → Store
  | [] => [(key, e)]
  | (k, v) :: rest =>
    if k = key then (key, e) :: rest else (k, v) :: insertEntry key e rest

/-- Python `key in _cache_store` / `_cache_store[key]`. -/
def lookupEntry (key : String) : Store → Option CacheEntry
  | [] => none
  | (k, e) :: rest => if k = key then some e else lookupEntry key rest

/-- Python `del _cache_store[key]`. -/
def eraseKey (key : String) : Store → Store
  | [] => []
  | (k, e) :: rest => if k = key then rest else (k, e) :: eraseKey key rest

/-- Python `cache_data(key, data, ttl_seconds)` at clock instant `now`:
`expires_at = now + ttl_seconds`, unconditional store, returns True. -/
def cache_data (now : Int) (key : String) (data : JsonValue) (ttl_seconds : Int)
    (store : Store) : Bool × Store :=
  (true,
    insertEntry key
      { data := data, expires_at := now + ttl_seconds, cached_at := now } store)

/-- Python `get_cached_data(key)` at clock instant `now`: absent on miss; on
`now > expires_at` delete the entry and return absent (lazy expiration);
otherwise return the stored data. -/
def get_cached_data (now : Int) (key : String) (store : Store) :
    Option JsonValue × Store :=
  match lookupEntry key store with
  | none => (none, store)
  | some e =>
    if now > e.expires_at then (none, eraseKey key store)
    else (some e.data, store)

/-- Whether `p` starts the list `s`. -/
def listStartsWith : List Char → List Char → Bool
  | [], _ => true
  | _ :: _, [] => false
  | a :: as, b :: bs => a == b && listStartsWith as bs

/-- Whether `p` occurs as a contiguous sublist of `s`. -/
def listHasSub (p : List Char) : List Char → Bool
  | [] => p.isEmpty
  | c :: rest => listStartsWith p (c :: rest) || listHasSub p rest

/-- Python `pattern in k`: plain substring containment. -/
def substrB (pattern k : String) : Bool :=
  listHasSub pattern.toList k.toList

/-- Python `clear_cache(pattern)`: with no pattern, clear everything and return the
prior count; with a pattern, collect the keys containing it as a substring,
delete each, and return how many were collected. -/
def clear_cache (pattern : Option String) (store : Store) : Nat × Store :=
  match pattern with
  | none => (store.length, [])
  | some p =>
    let keys_to_remove := (store.map Prod.fst).filter (fun k => substrB p k)
    (keys_to_remove.length,
      keys_to_remove.foldl (fun s k => eraseKey k s) store)

/-- The Python dict invariant: store keys are unique. -/
abbrev keysNodup (store : Store) : Prop := (store.map Prod.fst).Nodup

/-- Unicode decimal-digit blocks (general category Nd, Unicode 15.0): the
codepoint of the zero digit of each contiguous 0-9 run.  CPython `int()`
accepts exactly these characters, each worth codepoint minus block start.
The mathematical alphanumeric digits U+1D7CE-1D7FF appear as five
consecutive runs. -/
def decimalZeroPoints : List Nat :=
  [0x30, 0x660, 0x6F0, 0x7C0, 0x966, 0x9E6, 0xA66, 0xAE6, 0xB66, 0xBE6,
   0xC66, 0xCE6, 0xD66, 0xDE6, 0xE50, 0xED0, 0xF20, 0x1040, 0x1090, 0x17E0,
   0x1810, 0x1946, 0x19D0, 0x1A80, 0x1A90, 0x1B50, 0x1BB0, 0x1C40, 0x1C50,
   0xA620, 0xA8D0, 0xA900, 0xA9D0, 0xA9F0, 0xAA50, 0xABF0, 0xFF10,
   0x104A0, 0x10D30, 0x11066, 0x110F0, 0x11136, 0x111D0, 0x112F0, 0x11450,
   0x114D0, 0x11650, 0x116C0, 0x11730, 0x118E0, 0x11950, 0x11C50, 0x11D50,
   0x11DA0, 0x11F50, 0x16A60, 0x16AC0, 0x16B50, 0x1D7CE, 0x1D7D8, 0x1D7E2,
   0x1D7EC, 0x1D7F6, 0x1E140, 0x1E2F0, 0x1E4F0, 0x1E950, 0x1FBF0]

/-- Python `unicodedata` decimal value of a character: its offset within an
Nd block, when it lies in one. -/
def pyDecimalVal? (c : Char) : Option Nat :=
  match decimalZeroPoints.find? (fun s => decide (s ≤ c.toNat ∧ c.toNat < s + 10)) with
  | some s => some (c.toNat - s)
  | none => none

/-- Characters Python `isdigit()` accepts but `int()` rejects
(Numeric_Type=Digit, Unicode 15.0): superscript and subscript digits,
Ethiopic, New Tai Lue Tham and Kharoshthi digits, circled, parenthesized,
full-stop, double-circled and dingbat digit forms, and digit-with-comma
forms. -/
def pyDigitOnlyChar (c : Char) : Bool :=
  let n := c.toNat
  decide ((0xB2 ≤ n ∧ n ≤ 0xB3) ∨ n = 0xB9 ∨
    (0x1369 ≤ n ∧ n ≤ 0x1371) ∨ n = 0x19DA ∨
    n = 0x2070 ∨ (0x2074 ≤ n ∧ n ≤ 0x2079) ∨
    (0x2080 ≤ n ∧ n ≤ 0x2089) ∨
    (0x2460 ≤ n ∧ n ≤ 0x2468) ∨ (0x2474 ≤ n ∧ n ≤ 0x247C) ∨
    (0x2488 ≤ n ∧ n ≤ 0x2490) ∨ n = 0x24EA ∨
    (0x24F5 ≤ n ∧ n ≤ 0x24FD) ∨
    (0x2776 ≤ n ∧ n ≤ 0x277E) ∨ (0x2780 ≤ n ∧ n ≤ 0x2788) ∨
    (0x278A ≤ n ∧ n ≤ 0x2792) ∨
    (0x10A40 ≤ n ∧ n ≤ 0x10A43) ∨
    (0x1F100 ≤ n ∧ n ≤ 0x1F10A))

/-- Python `str.isdigit()` on one character: Numeric_Type Decimal or Digit. -/
def pyIsDigitChar (c : Char) : Bool :=
  (pyDecimalVal? c).isSome || pyDigitOnlyChar c

/-- Python `str.isdigit()`: nonempty and every character of Numeric_Type
Decimal or Digit. -/
def pyIsdigit (s : String) : Bool :=
  !s.isEmpty && s.toList.all pyIsDigitChar

/-- Python `int(s)` on an isdigit-true string: succeeds exactly when every
character is a decimal digit (Nd); a Digit-only character such as the
superscript two makes it raise ValueError (`none`). -/
def pyIntParse? (s : String) : Option Nat :=
  s.toList.foldl
    (fun acc c =>
      match acc, pyDecimalVal? c with
      | some n, some d => some (10 * n + d)
      | _, _ => none)
    (some 0)

/-- Outcome of resolving one path under the Unicode-faithful model: a
resolved value; a per-field failure (KeyError/IndexError, caught by the
per-field handler); or a ValueError raised by `int()` on a digit-classified
but non-decimal segment, which no handler in the function catches. -/
inductive Resolution where
  | ok (v : JsonValue) : Resolution
  | failed : Resolution
  | valueError : Resolution

namespace PyUnicode

/-- The segment walk of `extract_data_fields` with `str.isdigit()` and
`int()` modelled over the Unicode digit classes: a digit-classified segment
is parsed first — raising ValueError when some character is digit-type but
not decimal — and then indexes a sequence; any other segment keys a map. -/
def resolveParts : List String → JsonValue → Resolution
  | [], current => Resolution.ok current
  | part :: rest, current =>
    if pyIsdigit part then
      match pyIntParse? part with
      | none => Resolution.valueError
      | some index =>
        match current with
        | JsonValue.arr xs =>
          match xs.get? index with
          | some v => resolveParts rest v
          | none => Resolution.failed
        | _ => Resolution.failed
    else
      match current with
      | JsonValue.obj kvs =>
        match lookupObj part kvs with
        | some v => resolveParts rest v
        | none => Resolution.failed
      | _ => Resolution.failed

/-- Python `extract_data_fields` under the Unicode-faithful segment
classification: per-field failures bind null, but a ValueError escapes the
per-field `except (KeyError, IndexError, TypeError)`, is re-raised by the
outer handler, and aborts the whole call (`none`). -/
def extract_data_fields (source_data : JsonValue) :
    List (String × String) → Option (List (String × JsonValue))
  | [] => some []
  | (new_field, source_path) :: rest =>
    match resolveParts (splitDot source_path) source_data with
    | Resolution.valueError => none
    | Resolution.ok v =>
      (extract_data_fields source_data rest).map (fun r => (new_field, v) :: r)
    | Resolution.failed =>
      (extract_data_fields source_data rest).map
        (fun r => (new_field, JsonValue.null) :: r)

end PyUnicode

namespace PyDatetime

/-- Latest CPython datetime instant, in integer seconds from
0001-01-01T00:00:00 (datetime.min): 9999-12-31T23:59:59. -/
def datetimeMaxSeconds : Int := 315537897599

/-- Least `timedelta(seconds=x)` argument that normalizes within the
-999999999-day bound of timedelta. -/
def timedeltaLoSeconds : Int := -86399999913600

/-- Greatest `timedelta(seconds=x)` argument that normalizes within the
999999999-day bound of timedelta. -/
def timedeltaHiSeconds : Int := 86399999999999

/-- Python `cache_data` with CPython datetime arithmetic bounds modelled:
`datetime.now() + timedelta(seconds=ttl_seconds)` raises OverflowError when
the timedelta or the resulting instant is unrepresentable, and the
`except Exception` handler turns that into False with the store unchanged.
Timestamps are integer seconds from datetime.min. -/
def cache_data (now : Int) (key : String) (data : JsonValue)
    (ttl_seconds : Int) (store : Store) : Bool × Store :=
  if timedeltaLoSeconds ≤ ttl_seconds ∧ ttl_seconds ≤ timedeltaHiSeconds ∧
      0 ≤ now + ttl_seconds ∧ now + ttl_seconds ≤ datetimeMaxSeconds then
    (true, insertEntry key
      { data := data, expires_at := now + ttl_seconds, cached_at := now } store)
  else
    (false, store)

end PyDatetime

/-- C2: a segment consisting only of digits is always treated as a sequence
index, never as a map key — against a map it fails outright; in particular
extracting path "0" from the map with key "0" yields null. -/
theorem digit_segment_never_map_key :
    (∀ part rest kvs, isdigitStr part = true →
      resolveParts (part :: rest) (JsonValue.obj kvs) = none) ∧
    extract_data_fields (JsonValue.obj [("0", JsonValue.str "a")]) [("f", "0")]
      = [("f", JsonValue.null)] := by
  refine ⟨?_, rfl⟩
  intro part rest kvs hdig
  simp [resolveParts, hdig]

/-- Closed instantiation of the index-first disambiguation rule of C2. -/
theorem digit_segment_never_map_key_witness :
    resolveParts ["0"] (JsonValue.obj [("0", JsonValue.str "a")]) = none :=
  digit_segment_never_map_key.1 "0" [] [("0", JsonValue.str "a")] rfl

/-- C7: extraction is a pure function of source and mapping; two calls on
the same pair give identical results. -/
theorem extract_deterministic (s : JsonValue) (m : List (String × String)) :
    extract_data_fields s m = extract_data_fields s m := rfl

/-- Looking up a key just written finds the written entry. -/
theorem lookupEntry_insertEntry (key : String) (e : CacheEntry) (store : Store) :
    lookupEntry key (insertEntry key e store) = some e := by
  induction store with
  | nil => simp [insertEntry, lookupEntry]
  | cons head tail ih =>
    obtain ⟨k, v⟩ := head
    by_cases h : k = key
    · simp [insertEntry, h, lookupEntry]
    · simp [insertEntry, h, lookupEntry, ih]

/-- Deleting a present key shrinks the store by exactly one entry. -/
theorem eraseKey_length (key : String) (store : Store) (e : CacheEntry)
    (h : lookupEntry key store = some e) :
    (eraseKey key store).length + 1 = store.length := by
  induction store with
  | nil => simp [lookupEntry] at h
  | cons head tail ih =>
    obtain ⟨k, v⟩ := head
    by_cases hk : k = key
    · simp [eraseKey, hk]
    · rw [lookupEntry, if_neg hk] at h
      simp [eraseKey, hk, ih h]

/-- Counterexample to C4 as stated: with no intervening advance of the
clock, a TTL-0 put is not yet expired — expiry uses the strict comparison
`now > expires_at` — so the immediate get returns the stored value, not
absent. -/
theorem zero_ttl_same_instant_hit :
    (get_cached_data 0 "k" (cache_data 0 "k" JsonValue.null 0 []).2).1 ≠ none := by
  have h : (get_cached_data 0 "k" (cache_data 0 "k" JsonValue.null 0 []).2).1
      = some JsonValue.null := rfl
  rw [h]
  exact fun hc => Option.noConfusion hc

/-- C4 amended: `put(k, v, ttl)` with `ttl <= 0` is accepted and produces an
entry that is expired at any strictly later read — the get deletes it and
returns absent; at the exact same clock instant the entry is not yet
expired because expiry is the strict comparison `now > expires_at`. -/
theorem zero_ttl_expired_at_later_read (now later ttl : Int) (key : String)
    (v : JsonValue) (store : Store) (httl : ttl ≤ 0) (hlt : now < later) :
    get_cached_data later key (cache_data now key v ttl store).2
      = (none, eraseKey key (cache_data now key v ttl store).2) := by
  have hgt : later > now + ttl := by omega
  simp [get_cached_data, cache_data, lookupEntry_insertEntry, hgt]

/-- Closed instantiation of the amended C4. -/
theorem zero_ttl_expired_at_later_read_witness :
    get_cached_data 1 "k" (cache_data 0 "k" JsonValue.null 0 []).2
      = (none, eraseKey "k" (cache_data 0 "k" JsonValue.null 0 []).2) :=
  zero_ttl_expired_at_later_read 0 1 0 "k" JsonValue.null [] (by decide) (by decide)

/-- C5: an immediate get after a put with TTL 60 returns the stored value
unchanged; and a get that finds an entry with `now > expires_at` deletes
exactly that entry (the entry count decreases by one) and returns absent. -/
theorem cache_roundtrip_and_lazy_expiry :
    (∀ now key v store,
      get_cached_data now key (cache_data now key v 60 store).2
        = (some v, (cache_data now key v 60 store).2)) ∧
    (∀ now key store e, lookupEntry key store = some e → now > e.expires_at →
      get_cached_data now key store = (none, eraseKey key store) ∧
      (eraseKey key store).length + 1 = store.length) := by
  constructor
  · intro now key v store
    have hng : ¬ (now > now + 60) := by omega
    simp [get_cached_data, cache_data, lookupEntry_insertEntry, hng]
  · intro now key store e hl hexp
    refine ⟨?_, eraseKey_length key store e hl⟩
    simp [get_cached_data, hl, hexp]

/-- Closed instantiation of the expiry half of C5. -/
theorem cache_roundtrip_and_lazy_expiry_witness :
    get_cached_data 1 "k" [("k", (⟨JsonValue.null, 0, 0⟩ : CacheEntry))]
        = (none, eraseKey "k" [("k", (⟨JsonValue.null, 0, 0⟩ : CacheEntry))]) ∧
      (eraseKey "k" [("k", (⟨JsonValue.null, 0, 0⟩ : CacheEntry))]).length + 1
        = [("k", (⟨JsonValue.null, 0, 0⟩ : CacheEntry))].length :=
  cache_roundtrip_and_lazy_expiry.2 1 "k"
    [("k", ⟨JsonValue.null, 0, 0⟩)] ⟨JsonValue.null, 0, 0⟩ rfl (by decide)

/-- With unique keys, deleting a key is filtering it out. -/
theorem eraseKey_eq_filter (key : String) (store : Store) (h : keysNodup store) :
    eraseKey key store = store.filter (fun kv => !(kv.1 == key)) := by
  induction store with
  | nil => rfl
  | cons head tail ih =>
    obtain ⟨k, e⟩ := head
    simp only [keysNodup, List.map_cons, List.nodup_cons] at h
    by_cases hk : k = key
    · subst hk
      rw [eraseKey, if_pos rfl, List.filter_cons_of_neg (by simp)]
      symm
      rw [List.filter_eq_self]
      intro kv hkv
      have hne : kv.1 ≠ k := fun heq => h.1 (heq ▸ List.mem_map_of_mem Prod.fst hkv)
      simp [hne]
    · rw [eraseKey, if_neg hk, List.filter_cons_of_pos (by simp [hk]), ih h.2]

/-- Deletion preserves key uniqueness. -/
theorem keysNodup_eraseKey (key : String) (store : Store) (h : keysNodup store) :
    keysNodup (eraseKey key store) := by
  rw [eraseKey_eq_filter key store h]
  exact List.Nodup.sublist ((List.filter_sublist store).map Prod.fst) h

/-- Deleting a batch of keys in turn is filtering them all out at once
(when the store keys are unique). -/
theorem foldl_eraseKey_filter (ks : List String) (store : Store) (h : keysNodup store) :
    ks.foldl (fun s k => eraseKey k s) store
      = store.filter (fun kv => !(ks.contains kv.1)) := by
  induction ks generalizing store with
  | nil =>
    rw [List.foldl_nil]
    symm
    rw [List.filter_eq_self]
    intro kv _
    rfl
  | cons k ks ih =>
    rw [List.foldl_cons, ih (eraseKey k store) (keysNodup_eraseKey k store h),
      eraseKey_eq_filter k store h, List.filter_filter]
    apply List.filter_congr
    intro kv _
    by_cases hk : kv.1 = k <;> simp [hk]

/-- Characterization of the starts-with check. -/
theorem listStartsWith_iff (p s : List Char) :
    listStartsWith p s = true ↔ ∃ r, s = p ++ r := by
  induction p generalizing s with
  | nil => simp [listStartsWith]
  | cons a as ih =>
    cases s with
    | nil => simp [listStartsWith]
    | cons b bs =>
      simp only [listStartsWith, Bool.and_eq_true, beq_iff_eq, ih,
        List.cons_append, List.cons.injEq]
      constructor
      · rintro ⟨hab, r, hr⟩
        exact ⟨r, hab.symm, hr⟩
      · rintro ⟨r, hba, hr⟩
        exact ⟨hba.symm, r, hr⟩

/-- Characterization of the substring check: plain contiguous containment. -/
theorem listHasSub_iff (p s : List Char) :
    listHasSub p s = true ↔ ∃ l r, s = l ++ p ++ r := by
  induction s with
  | nil =>
    rw [listHasSub, List.isEmpty_iff]
    constructor
    · intro h
      exact ⟨[], [], by simp [h]⟩
    · rintro ⟨l, r, h⟩
      have h' := h.symm
      simp only [List.append_eq_nil, List.append_assoc] at h'
      exact h'.2.1
  | cons c rest ih =>
    rw [listHasSub, Bool.or_eq_true, listStartsWith_iff, ih]
    constructor
    · rintro (⟨r, hr⟩ | ⟨l, r, hr⟩)
      · exact ⟨[], r, by simpa using hr⟩
      · exact ⟨c :: l, r, by simp [hr]⟩
    · rintro ⟨l, r, hr⟩
      cases l with
      | nil =>
        left
        exact ⟨r, by simpa using hr⟩
      | cons x xs =>
        right
        simp only [List.cons_append] at hr
        injection hr with h1 h2
        exact ⟨xs, r, h2⟩

/-- C6: clearing with no pattern removes all entries and returns the prior
count; clearing with pattern `p` removes exactly the entries whose key
contains `p` as a plain substring (containment characterized as a list
decomposition, not glob or regex), returns the number removed, and leaves
every entry whose key does not contain `p` unchanged. -/
theorem clear_cache_spec (store : Store) (p : String) (h : keysNodup store) :
    clear_cache none store = (store.length, []) ∧
    (clear_cache (some p) store).2 = store.filter (fun kv => !(substrB p kv.1)) ∧
    (clear_cache (some p) store).1 = (store.filter (fun kv => substrB p kv.1)).length ∧
    (∀ q s, substrB q s = true ↔ ∃ l r, s.toList = l ++ q.toList ++ r) := by
  refine ⟨rfl, ?_, ?_, fun q s => listHasSub_iff q.toList s.toList⟩
  · show ((store.map Prod.fst).filter (fun k => substrB p k)).foldl
        (fun s k => eraseKey k s) store = _
    rw [foldl_eraseKey_filter _ store h]
    apply List.filter_congr
    intro kv hkv
    have hmem : kv.1 ∈ store.map Prod.fst := List.mem_map_of_mem Prod.fst hkv
    by_cases hs : substrB p kv.1
    · have hin : kv.1 ∈ (store.map Prod.fst).filter (fun k => substrB p k) :=
        List.mem_filter.mpr ⟨hmem, hs⟩
      simp [List.contains, List.elem_iff, hin, hs]
    · have hout : kv.1 ∉ (store.map Prod.fst).filter (fun k => substrB p k) := fun hc =>
        hs (List.mem_filter.mp hc).2
      simp [List.contains, List.elem_iff, hout, hs]
  · show ((store.map Prod.fst).filter (fun k => substrB p k)).length = _
    rw [List.filter_map, List.length_map]
    rfl

/-- Closed instantiation of C6 on the three-key example store. -/
theorem clear_cache_spec_witness :
    (clear_cache (some "weather_")
        [("weather_paris", (⟨JsonValue.null, 1, 0⟩ : CacheEntry)),
         ("weather_london", ⟨JsonValue.null, 1, 0⟩),
         ("forecast_paris", ⟨JsonValue.null, 1, 0⟩)]).1
      = ([("weather_paris", (⟨JsonValue.null, 1, 0⟩ : CacheEntry)),
          ("weather_london", ⟨JsonValue.null, 1, 0⟩),
          ("forecast_paris", ⟨JsonValue.null, 1, 0⟩)].filter
            (fun kv => substrB "weather_" kv.1)).length :=
  (clear_cache_spec
    [("weather_paris", ⟨JsonValue.null, 1, 0⟩),
     ("weather_london", ⟨JsonValue.null, 1, 0⟩),
     ("forecast_paris", ⟨JsonValue.null, 1, 0⟩)] "weather_" (by decide)).2.2.1

/-- Every list contains the empty list as a substring. -/
theorem listHasSub_nil_pat (s : List Char) : listHasSub [] s = true := by
  cases s <;> rfl

/-- Deleting every key of the store, in order, empties it. -/
theorem foldl_eraseKey_all (store : Store) :
    (store.map Prod.fst).foldl (fun s k => eraseKey k s) store = [] := by
  induction store with
  | nil => rfl
  | cons head tail ih =>
    obtain ⟨k, e⟩ := head
    rw [List.map_cons, List.foldl_cons,
      show eraseKey k ((k, e) :: tail) = tail from by rw [eraseKey, if_pos rfl]]
    exact ih

/-- C10: clearing with the empty string as pattern behaves exactly like
clearing with no pattern — every key contains the empty substring, so all
entries are removed and the prior entry count is returned, for every
starting store. -/
theorem clear_empty_pattern_is_full_clear (store : Store) :
    clear_cache (some "") store = clear_cache none store := by
  have hfilter : (store.map Prod.fst).filter (fun k => substrB "" k)
      = store.map Prod.fst := by
    rw [List.filter_eq_self]
    intro k _
    exact listHasSub_nil_pat k.toList
  simp only [clear_cache]
  rw [hfilter, foldl_eraseKey_all, List.length_map]

/-- C3 is violated by the code: a path segment that is isdigit-true but not
int-parseable ("²") raises ValueError, which the per-field
`except (KeyError, IndexError, TypeError)` does not catch and the outer
handler re-raises — the caller gets an exception instead of a complete
per-field result, and sibling fields that resolved fine are lost too. -/
theorem extract_raises_on_unparseable_digit :
    PyUnicode.extract_data_fields (JsonValue.obj []) [("f", "²")] = none ∧
    PyUnicode.extract_data_fields
        (JsonValue.obj [("main", JsonValue.obj [("temp", JsonValue.num 20.5)])])
        [("temp2", "main.temp"), ("f", "²")] = none := by
  exact ⟨rfl, rfl⟩

/-- Counterexample to C9 as stated: at a representable current instant, a
TTL of 10^15 seconds overflows timedelta, the OverflowError is caught by
`except Exception`, and `cache_data` returns False — the failure branch is
reachable. -/
theorem cache_data_overflow_counterexample :
    (PyDatetime.cache_data 63900000000 "k" JsonValue.null 1000000000000000 []).1
        = false ∧
      ¬ ((PyDatetime.cache_data 63900000000 "k" JsonValue.null 1000000000000000 []).1
        = true) := by
  have he : (PyDatetime.cache_data 63900000000 "k" JsonValue.null 1000000000000000 []).1
      = false := rfl
  exact ⟨he, by rw [he]; exact fun h => Bool.noConfusion h⟩

/-- C9 amended: `cache_data` returns True exactly when the expiry
computation is representable — the TTL within timedelta's ±999999999-day
bound and now + ttl within datetime's year-1..9999 range; within those
bounds (every practical TTL) it behaves exactly like the unbounded model
and stores the entry; outside them OverflowError is caught and False is
returned with the store unchanged. -/
theorem cache_data_true_iff_representable (now ttl_seconds : Int) (key : String)
    (v : JsonValue) (store : Store) :
    ((PyDatetime.cache_data now key v ttl_seconds store).1 = true ↔
      (PyDatetime.timedeltaLoSeconds ≤ ttl_seconds ∧
        ttl_seconds ≤ PyDatetime.timedeltaHiSeconds ∧
        0 ≤ now + ttl_seconds ∧
        now + ttl_seconds ≤ PyDatetime.datetimeMaxSeconds)) ∧
    (PyDatetime.timedeltaLoSeconds ≤ ttl_seconds →
      ttl_seconds ≤ PyDatetime.timedeltaHiSeconds →
      0 ≤ now + ttl_seconds → now + ttl_seconds ≤ PyDatetime.datetimeMaxSeconds →
      PyDatetime.cache_data now key v ttl_seconds store
        = cache_data now key v ttl_seconds store) ∧
    ((PyDatetime.cache_data now key v ttl_seconds store).1 = false →
      (PyDatetime.cache_data now key v ttl_seconds store).2 = store) := by
  unfold PyDatetime.cache_data cache_data
  by_cases hcond : (PyDatetime.timedeltaLoSeconds ≤ ttl_seconds ∧
      ttl_seconds ≤ PyDatetime.timedeltaHiSeconds ∧
      0 ≤ now + ttl_seconds ∧ now + ttl_seconds ≤ PyDatetime.datetimeMaxSeconds)
  · rw [if_pos hcond]
    exact ⟨by simp [hcond], fun _ _ _ _ => rfl, fun h => Bool.noConfusion h⟩
  · rw [if_neg hcond]
    exact ⟨by simp [hcond], fun h1 h2 h3 h4 => absurd ⟨h1, h2, h3, h4⟩ hcond,
      fun _ => rfl⟩

/-- Closed instantiation of the amended C9: a five-minute TTL at a current
instant is representable, stores, and matches the unbounded model. -/
theorem cache_data_true_iff_representable_witness :
    PyDatetime.cache_data 63900000000 "k" JsonValue.null 300 []
      = cache_data 63900000000 "k" JsonValue.null 300 [] :=
  (cache_data_true_iff_representable 63900000000 300 "k" JsonValue.null []).2.1
    (by decide) (by decide) (by decide) (by decide)
